import Mathlib

/-!
Shallow embedding of the opinion-matching web application (package `website`,
files `__init__.py` and `views.py`).  Machine floats of the source are modelled
by `ℚ`, timestamps by `Nat` tick counts or ISO strings, the relational store by
in-memory lists of rows, and `db.session.commit()` by the identity on the model
state (all mutations are already explicit).
-/

namespace Website

/-- A row of the `OpinionDimension` table (static catalog entry).
`id` is the autoincrement primary key assigned at insert time. -/
structure OpinionDimension where
  id : Nat
  name : String
  display_name : String
  question_type : String
  question_number : Nat
  description : String
  default_weight : ℚ
  is_active : Bool
deriving DecidableEq, Repr

/-- One seed tuple of `initialize_opinion_dimensions`
(`name, display_name, question_type, question_number, description, weight`). -/
structure SeedDim where
  name : String
  display_name : String
  question_type : String
  question_number : Nat
  description : String
  weight : ℚ
deriving DecidableEq, Repr

/-- The 15 seed tuples hard-coded in `initialize_opinion_dimensions`
(`website/__init__.py`, the `dimensions` list).  Float weights 1.0 … 2.0
are carried over exactly as rationals. -/
def dimensionSeed : List SeedDim :=
  [ ⟨"attitude_open_to_differ", "Open to Different Opinions", "attitude", 1,
      "I am open to hearing opinions on this topic that differ from my own.", 1⟩,
    ⟨"attitude_see_both_sides", "See Both Positive and Negative", "attitude", 2,
      "I can see both positive and negative aspects of this issue.", 1⟩,
    ⟨"attitude_willing_adjust", "Willing to Adjust View", "attitude", 3,
      "I would be willing to adjust my view if presented with convincing evidence.", 1⟩,
    ⟨"attitude_valid_concerns", "Opponents Have Valid Concerns", "attitude", 4,
      "People who disagree with me may still have valid concerns.", 1⟩,
    ⟨"attitude_common_ground", "Possible to Find Common Ground", "attitude", 5,
      "I believe it is possible to find common ground between opposing views.", 1⟩,
    ⟨"match_support_main_idea", "Support Main Idea", "matching", 1,
      "I support the main idea behind this topic.", 2⟩,
    ⟨"match_benefits_outweigh_risks", "Benefits Outweigh Risks", "matching", 2,
      "I believe the benefits of this topic outweigh its risks.", 9/5⟩,
    ⟨"match_take_action", "Would Take Action", "matching", 3,
      "I would personally take action to support this issue.", 3/2⟩,
    ⟨"match_positive_impact", "Positive Impact", "matching", 4,
      "This issue has an overall positive impact on society.", 19/10⟩,
    ⟨"match_deserves_attention", "Deserves Attention", "matching", 5,
      "This issue deserves more public attention.", 13/10⟩,
    ⟨"match_trust_experts", "Trust Experts", "matching", 6,
      "I trust the experts or authorities on this topic.", 7/5⟩,
    ⟨"match_emotional_connection", "Emotional Connection", "matching", 7,
      "I feel emotionally connected to this issue.", 6/5⟩,
    ⟨"match_opposing_misunderstanding", "Opposition = Misunderstanding", "matching", 8,
      "I think opposing views are often based on misunderstanding.", 11/10⟩,
    ⟨"match_should_be_priority", "Should Be Priority", "matching", 9,
      "Addressing this issue should be a priority.", 17/10⟩,
    ⟨"match_aligns_values", "Aligns with Values", "matching", 10,
      "This topic aligns with my personal values.", 8/5⟩ ]

/-- `initialize_opinion_dimensions` (`website/__init__.py`): if the table
already holds 15 or more rows it returns immediately; otherwise every seed
tuple whose `name` is not yet present is inserted (fresh autoincrement id),
and the transaction is committed. -/
def initialize_opinion_dimensions (dims : List OpinionDimension) : List OpinionDimension :=
  if dims.length ≥ 15 then dims
  else
    dimensionSeed.foldl
      (fun acc t =>
        if acc.any (fun d => d.name = t.name) then acc
        else acc ++ [⟨acc.length + 1, t.name, t.display_name, t.question_type,
                      t.question_number, t.description, t.weight, true⟩])
      dims

/-- The matching-relevant columns of the `User` table, as used by
`save_questionnaire_responses` and `views.py` (the model file itself is not
among the provided sources; fields are taken from their use sites).
`matchScores` models the `match1` … `match10` columns positionally. -/
structure User where
  id : Nat
  topic : Option String := none
  haspartner : Bool := false
  partner_id : Option Nat := none
  meeting_id : Option Nat := none
  is_extremist : Bool := false
  openness_score : Option ℚ := none
  time_slot_1 : Option String := none
  time_slot_2 : Option String := none
  time_slot_3 : Option String := none
  matchScores : List (Option ℚ) := List.replicate 10 none
deriving DecidableEq, Repr

/-- A row of the `UserOpinion` table: one score per (user, dimension). -/
structure UserOpinion where
  user_id : Nat
  dimension_id : Nat
  score : ℚ
  updated_at : Nat
deriving DecidableEq, Repr

/-- The slice of database state touched by the questionnaire logic. -/
structure QState where
  dims : List OpinionDimension
  opinions : List UserOpinion
  users : List User
deriving DecidableEq, Repr

/-- `User.query.get(uid)` / `query.filter_by(...).first()` on the user table:
first row with the given primary key. -/
def getUser (users : List User) (uid : Nat) : Option User :=
  users.find? (fun u => u.id = uid)

/-- The `UserOpinion` upsert inside `save_questionnaire_responses`:
`query.filter_by(user_id, dimension_id).first()` — if a row exists its
`score` and `updated_at` are overwritten in place, otherwise a fresh row is
added (`db.session.add`, i.e. appended). -/
def upsertOpinion : List UserOpinion → Nat → Nat → ℚ → Nat → List UserOpinion
  | [], uid, did, sc, now => [⟨uid, did, sc, now⟩]
  | o :: rest, uid, did, sc, now =>
    if o.user_id = uid ∧ o.dimension_id = did then
      { o with score := sc, updated_at := now } :: rest
    else o :: upsertOpinion rest uid did sc now

/-- The dictionary returned by `save_questionnaire_responses`. -/
structure SaveResult where
  openness_score : Option ℚ
  is_extremist : Bool
  attitude_scores : List ℚ
deriving DecidableEq, Repr

/-- One iteration of the attitude loop (`for i in range(1, 6)`): if the field
`attitude{i}` is present, look up the dimension with
`question_type='attitude', question_number=i`; when found, upsert the user's
opinion row and append the score to `attitude_scores`. -/
def attitudeStep (dims : List OpinionDimension) (uid now : Nat) (form : String → Option ℚ)
    (acc : List UserOpinion × List ℚ) (i : Nat) : List UserOpinion × List ℚ :=
  match form ("attitude" ++ toString i) with
  | none => acc
  | some score =>
    match dims.find? (fun d => d.question_type = "attitude" ∧ d.question_number = i) with
    | none => acc
    | some dim => (upsertOpinion acc.1 uid dim.id score now, acc.2 ++ [score])

/-- One iteration of the matching loop (`for i in range(1, 11)`): like
`attitudeStep` for field `match{i}` and `question_type='matching'`, except
that the score is not collected. -/
def matchStep (dims : List OpinionDimension) (uid now : Nat) (form : String → Option ℚ)
    (acc : List UserOpinion) (i : Nat) : List UserOpinion :=
  match form ("match" ++ toString i) with
  | none => acc
  | some score =>
    match dims.find? (fun d => d.question_type = "matching" ∧ d.question_number = i) with
    | none => acc
    | some dim => upsertOpinion acc uid dim.id score now

/-- `save_questionnaire_responses(user_id, form_data)` (`website/__init__.py`):
returns `none` when the user does not exist; otherwise runs the attitude loop
(collecting `attitude_scores`), the matching loop, and — when
`attitude_scores` is non-empty — sets the user's `openness_score` to their
average and `is_extremist` to `openness_score < 0.0`, then commits and
returns the result dictionary read back from the user row.  `form` models the
already-parsed numeric form values; `now` models `datetime.utcnow()`. -/
def save_questionnaire_responses (now : Nat) (s : QState) (uid : Nat)
    (form : String → Option ℚ) : QState × Option SaveResult :=
  match getUser s.users uid with
  | none => (s, none)
  | some _ =>
    let acc := [1, 2, 3, 4, 5].foldl (attitudeStep s.dims uid now form) (s.opinions, [])
    let attitude_scores := acc.2
    let ops := [1, 2, 3, 4, 5, 6, 7, 8, 9, 10].foldl (matchStep s.dims uid now form) acc.1
    let users' :=
      if attitude_scores.isEmpty then s.users
      else
        let openness := attitude_scores.sum / (attitude_scores.length : ℚ)
        s.users.map (fun w =>
          if w.id = uid then
            { w with openness_score := some openness, is_extremist := decide (openness < 0) }
          else w)
    let s' : QState := { s with opinions := ops, users := users' }
    match getUser users' uid with
    | none => (s', none)
    | some u' => (s', some ⟨u'.openness_score, u'.is_extremist, attitude_scores⟩)

/-- `get_openness_category` (`website/__init__.py`): bucket an optional
openness score into one of five labels. -/
def get_openness_category (openness_score : Option ℚ) : Option String :=
  match openness_score with
  | none => none
  | some q =>
    if q ≥ 3/2 then some "Very Open-Minded"
    else if q ≥ 1/2 then some "Open-Minded"
    else if q ≥ 0 then some "Moderately Open"
    else if q ≥ -(1/2) then some "Somewhat Closed"
    else some "Very Closed / Extremist"

/-- The user's declared availability as built in `views.index` / `views.home`:
the values of `{time_slot_1, time_slot_2, time_slot_3}` with SQL `NULL`s
dropped (`None` never survives the later truthiness filter). -/
def slotValues (u : User) : List String :=
  [u.time_slot_1, u.time_slot_2, u.time_slot_3].filterMap id

/-- `common = [s for s in my_slots.intersection(partner_slots) if s]`
(`views.py`, both in `index` and `home`): the distinct slots shared by both
users, with falsy entries (empty strings; `None` already dropped) removed.
Python iterates the set in an unspecified order; this definition fixes
first-occurrence order, and theorems about `home` quantify over all
permutations of it. -/
def commonSlots (a b : User) : List String :=
  ((slotValues a).dedup.filter (fun s => decide (s ∈ slotValues b))).filter
    (fun s => decide (s ≠ ""))

/-- The slot whose label `views.index` displays: `sorted(common)[0]`
(present whether or not `datetime.fromisoformat` succeeds). -/
def indexSelectedSlot (a b : User) : Option String :=
  ((commonSlots a b).insertionSort (fun s t => s ≤ t)).head?

/-- The slot whose label `views.home` displays: `common[0]`, where `common`
enumerates the intersection set in whatever order Python's set iteration
yields; `enum` is that enumeration. -/
def homeSelectedSlot (enum : List String) : Option String :=
  enum.head?

/-- The pairing writes of `find_matches_for_user` (`views.py` lines 223–229):
both rows get `haspartner = True`, `partner_id` pointing at each other, and
`meeting_id = user.id` (the seeker's id). -/
def commitMatchState (s : List User) (uid mid : Nat) : List User :=
  s.map (fun w =>
    if w.id = uid then
      { w with haspartner := true, partner_id := some mid, meeting_id := some uid }
    else if w.id = mid then
      { w with haspartner := true, partner_id := some uid, meeting_id := some uid }
    else w)

/-- `find_matches_for_user(user_id)` (`views.py`), happy path, parameterised
by the behaviour of `MatchingService.find_best_match_for_user` (`finder`):
unknown user or no finder result leaves the state unchanged; otherwise the
pairing writes of `commitMatchState` are committed. -/
def find_matches_for_user (finder : List User → User → Option (User × ℚ × String))
    (s : List User) (uid : Nat) : List User :=
  match getUser s uid with
  | none => s
  | some u =>
    match finder s u with
    | none => s
    | some (m, _, _) => commitMatchState s uid m.id

/-- The ways the body of `find_matches_for_user` can fail: the environment
says whether the user lookup raises, what the matching service returns (or
raises), and whether `db.session.commit()` raises. -/
structure MatchEnv where
  lookupFails : Bool
  finder : List User → User → Except String (Option (User × ℚ × String))
  commitFails : List User → Bool

/-- The statements inside the `try:` block of `find_matches_for_user`,
with every failable step drawn from `env`.  An `Except.error` is a raised
exception reaching the end of the block. -/
def find_matches_body (env : MatchEnv) (s : List User) (uid : Nat) :
    Except String (List User) :=
  if env.lookupFails then .error "db error" else
  match getUser s uid with
  | none => .ok s
  | some u =>
    match env.finder s u with
    | .error e => .error e
    | .ok none => .ok s
    | .ok (some (m, _, _)) =>
      let s' := commitMatchState s uid m.id
      if env.commitFails s' then .error "commit failed" else .ok s'

/-- `find_matches_for_user` including its `try/except Exception` wrapper: any
exception from the body is caught (and printed), and the function returns
normally (`None`) on every path, never re-raising. -/
def find_matches_for_user_try (env : MatchEnv) (s : List User) (uid : Nat) :
    Except String (List User) :=
  match find_matches_body env s uid with
  | .ok s' => .ok s'
  | .error _ => .ok s

/-- The tail of `views.demographics`'s POST handler after the user row was
saved: it calls `find_matches_for_user` and, provided that call returns
without raising, flashes the success message and redirects; a raise would
instead be caught by the handler's own `except`, which flashes an error. -/
def demographics_outcome (env : MatchEnv) (s : List User) (uid : Nat) : String :=
  match find_matches_for_user_try env s uid with
  | .ok _ => "Data saved. Check the platform regularly to see if you have been matched."
  | .error _ => "Error saving data."

/-- Observable events of one scheduler cycle. -/
inductive SchedEvent where
  | batchRun : SchedEvent
  | expireRun : SchedEvent
  | errorCaught : SchedEvent
deriving DecidableEq, Repr

/-- Behaviour of the two service calls of a cycle, per cycle index:
`Except.error` is a raised exception. -/
structure SchedEnv where
  runBatchMatching : Nat → Except String Nat
  expireOldMatches : Nat → Except String Nat

/-- One iteration of the `while self.running:` loop of
`MatchingScheduler._run_scheduler` (`website/__init__.py`):
`run_batch_matching()` first, then `expire_old_matches()`; an exception from
either lands in the `except Exception` handler at the cycle boundary (the
expiry call is skipped when batch matching raised). -/
def runCycle (env : SchedEnv) (i : Nat) : List SchedEvent :=
  match env.runBatchMatching i with
  | .error _ => [.batchRun, .errorCaught]
  | .ok _ =>
    match env.expireOldMatches i with
    | .error _ => [.batchRun, .expireRun, .errorCaught]
    | .ok _ => [.batchRun, .expireRun]

/-- `_run_scheduler`'s loop: starting at cycle index `i`, run `fuel` further
cycles (each followed by `time.sleep(3600)`), collecting each cycle's
events.  Since `self.running` stays `True`, `fuel` only truncates the
infinite trace for observation. -/
def runSchedulerFrom (env : SchedEnv) : Nat → Nat → List (List SchedEvent)
  | _, 0 => []
  | i, fuel + 1 => runCycle env i :: runSchedulerFrom env (i + 1) fuel

/-- The scheduler trace from boot: `fuel` cycles starting at index 0. -/
def runScheduler (env : SchedEnv) (fuel : Nat) : List (List SchedEvent) :=
  runSchedulerFrom env 0 fuel

/-- Modelled from the spec: the per-dimension weights of the 10 `matching`
dimensions (spec §4.1 scores against `d.weight`; the values are the
`default_weight`s of the seeded catalog, in question order 1–10). -/
def matchingWeights : List ℚ :=
  [2, 9/5, 3/2, 19/10, 13/10, 7/5, 6/5, 11/10, 17/10, 8/5]

/-- Modelled from the spec: a user's complete vector of 10 matching scores
(spec §4.1: eligibility requires all 10 `matching` dimension scores);
`none` when any is missing. -/
def completedScores (u : User) : Option (List ℚ) :=
  let l := u.matchScores.filterMap id
  if l.length = 10 then some l else none

/-- Modelled from the spec: weighted opinion distance
`Σ weight_d * |a_d - b_d|` over the 10 matching dimensions (spec §4.1). -/
def weightedDistance (a b : List ℚ) : ℚ :=
  ((a.zip b).zip matchingWeights).foldl (fun acc p => acc + p.2 * |p.1.1 - p.1.2|) 0

/-- Modelled from the spec: the compatibility score
`1 / (1 + Σ weight_d * |a_d − b_d|)` of spec §4.1, defined only when both
users completed all 10 matching scores. -/
def compatScore (a b : User) : Option ℚ :=
  match completedScores a, completedScores b with
  | some xs, some ys => some (1 / (1 + weightedDistance xs ys))
  | _, _ => none

/-- Modelled from the spec: the candidate filter of spec §4.3 — unmatched
(`has_partner = false`), non-extremist, a different user, the same topic,
a non-empty slot intersection (§4.2: a hard filter), and scorable (§4.1:
all 10 matching scores present). -/
def eligibleCandidate (u c : User) : Bool :=
  !c.haspartner && !c.is_extremist && decide (c.id ≠ u.id) &&
    decide (c.topic = u.topic) && decide (commonSlots u c ≠ []) &&
    (compatScore u c).isSome

/-- Modelled from the spec: the earliest shared slot — the intersection
sorted ascending (spec §4.2), first element. -/
def earliestSlot (l : List String) : String :=
  (l.insertionSort (fun s t => s ≤ t)).headD default

/-- Modelled from the spec: `MatchingService.find_best_match_for_user`
(file `website/matching_service.py`, which is not among the provided
sources).  Per spec §4.1/§4.3/§7: an extremist seeker or one missing
matching scores gets `none` (`IneligibleError` surfaces as no match);
otherwise the pool is filtered by `eligibleCandidate` and the candidate with
the maximum compatibility score wins, ties broken by smaller user id
(spec §4.1), returning the partner, the score and the earliest common
slot. -/
def find_best_match_for_user (pool : List User) (u : User) :
    Option (User × ℚ × String) :=
  if u.is_extremist ∨ (completedScores u).isNone then none
  else
    (pool.filter (eligibleCandidate u)).foldl
      (fun best c =>
        match compatScore u c with
        | none => best
        | some sc =>
          match best with
          | none => some (c, sc, earliestSlot (commonSlots u c))
          | some (b, bs, bslot) =>
            if sc > bs ∨ (sc = bs ∧ c.id < b.id) then
              some (c, sc, earliestSlot (commonSlots u c))
            else some (b, bs, bslot))
      none

/-! Helper lemmas shared between the claim theorems. -/

/-- A `find?`-style lookup on a list mapped through an id-preserving row
transformation finds the transformed row. -/
theorem getUser_map_of_id_preserving (g : User → User)
    (hg : ∀ w, (g w).id = w.id) (s : List User) (x : Nat) :
    getUser (s.map g) x = (getUser s x).map g := by
  induction s with
  | nil => rfl
  | cons w rest ih =>
    unfold getUser at *
    by_cases h : w.id = x
    · simp [List.find?_cons, hg w, h]
    · simp [List.find?_cons, hg w, h, ih]

/-- A successful `getUser` lookup returns a row carrying the requested id. -/
theorem getUser_id_eq {s : List User} {x : Nat} {u : User}
    (h : getUser s x = some u) : u.id = x := by
  have := List.find?_some h
  simpa using this

/-- The row transformation of `commitMatchState` keeps every row's id. -/
theorem commitMatch_id_preserving (uid mid : Nat) :
    ∀ w : User, ((fun w : User =>
      if w.id = uid then
        { w with haspartner := true, partner_id := some mid, meeting_id := some uid }
      else if w.id = mid then
        { w with haspartner := true, partner_id := some uid, meeting_id := some uid }
      else w) w).id = w.id := by
  intro w
  simp only []
  split_ifs <;> rfl

/-! ### C8 — catalog initialization -/

/-- C8: starting from an empty catalog, `initialize_opinion_dimensions`
creates exactly 15 rows — 5 of `question_type` "attitude" and 10 of
"matching", every one with a positive `default_weight` — and running it
again on the seeded catalog adds nothing. -/
theorem C8_initialize_opinion_dimensions_seeds_once :
    (initialize_opinion_dimensions []).length = 15 ∧
    ((initialize_opinion_dimensions []).filter
        (fun d => d.question_type = "attitude")).length = 5 ∧
    ((initialize_opinion_dimensions []).filter
        (fun d => d.question_type = "matching")).length = 10 ∧
    (∀ d ∈ initialize_opinion_dimensions [], 0 < d.default_weight) ∧
    initialize_opinion_dimensions (initialize_opinion_dimensions []) =
      initialize_opinion_dimensions [] := by
  refine ⟨by decide, by decide, by decide, ?_, rfl⟩
  intro d hd
  fin_cases hd <;> norm_num

/-! ### C9 — openness categorisation -/

/-- C9: `get_openness_category` is total and partitions its input: it
returns `none` exactly on `none`, each label is returned exactly on its
half-open score interval (closed on the lower side), and the four
boundary scores land in the stated buckets. -/
theorem C9_get_openness_category_partitions :
    (∀ x : Option ℚ, get_openness_category x = none ↔ x = none) ∧
    (∀ q : ℚ, get_openness_category (some q) = some "Very Open-Minded" ↔ 3/2 ≤ q) ∧
    (∀ q : ℚ, get_openness_category (some q) = some "Open-Minded" ↔ 1/2 ≤ q ∧ q < 3/2) ∧
    (∀ q : ℚ, get_openness_category (some q) = some "Moderately Open" ↔ 0 ≤ q ∧ q < 1/2) ∧
    (∀ q : ℚ, get_openness_category (some q) = some "Somewhat Closed" ↔ -(1/2) ≤ q ∧ q < 0) ∧
    (∀ q : ℚ, get_openness_category (some q) = some "Very Closed / Extremist" ↔ q < -(1/2)) ∧
    get_openness_category (some 0) = some "Moderately Open" ∧
    get_openness_category (some (1/2)) = some "Open-Minded" ∧
    get_openness_category (some (3/2)) = some "Very Open-Minded" ∧
    get_openness_category (some (-(1/2))) = some "Somewhat Closed" := by
  refine ⟨?_, ?_, ?_, ?_, ?_, ?_,
      by unfold get_openness_category; norm_num,
      by unfold get_openness_category; norm_num,
      by unfold get_openness_category; norm_num,
      by unfold get_openness_category; norm_num⟩
  · intro x
    cases x with
    | none => simp [get_openness_category]
    | some q =>
      simp only [get_openness_category]
      split_ifs <;> simp
  all_goals
    intro q
    simp only [get_openness_category, ge_iff_le]
    split_ifs <;> simp
  all_goals
    first
      | linarith
      | (rintro ⟨h9, h8⟩ ; linarith)
      | (refine ⟨by linarith, by linarith⟩)
      | (intro h9 ; linarith)

/-! ### C10 — foreground matching never raises -/

/-- C10: `find_matches_for_user` never raises to its caller: whatever the
user lookup, the matching service and the commit do (including raising),
the `try/except` wrapper returns normally, so the demographics POST flow
always reaches its success flash. -/
theorem C10_find_matches_for_user_never_raises :
    ∀ (env : MatchEnv) (s : List User) (uid : Nat),
      (find_matches_for_user_try env s uid).isOk = true ∧
      demographics_outcome env s uid =
        "Data saved. Check the platform regularly to see if you have been matched." := by
  intro env s uid
  unfold demographics_outcome find_matches_for_user_try
  cases find_matches_body env s uid <;> simp [Except.isOk, Except.toBool]

/-! ### C6 — scheduler phase order and error containment -/

/-- C6: in every scheduler cycle the batch-matching phase runs before the
expiry phase (the expiry event never precedes the batch event, and is
skipped when batch matching raised), any exception is caught at the cycle
boundary, and the loop always proceeds through all `fuel` ticks no matter
which phases fail. -/
theorem C6_scheduler_order_and_containment :
    ∀ (env : SchedEnv) (fuel : Nat),
      (runScheduler env fuel).length = fuel ∧
      ∀ t ∈ runScheduler env fuel,
        t = [.batchRun, .expireRun] ∨
        t = [.batchRun, .expireRun, .errorCaught] ∨
        t = [.batchRun, .errorCaught] := by
  have hlen : ∀ (env : SchedEnv) (fuel i : Nat),
      (runSchedulerFrom env i fuel).length = fuel := by
    intro env fuel
    induction fuel with
    | zero => intro i; rfl
    | succ n ih => intro i; simp [runSchedulerFrom, ih]
  have hmem : ∀ (env : SchedEnv) (fuel i : Nat), ∀ t ∈ runSchedulerFrom env i fuel,
      t = [.batchRun, .expireRun] ∨
      t = [.batchRun, .expireRun, .errorCaught] ∨
      t = [.batchRun, .errorCaught] := by
    intro env fuel
    induction fuel with
    | zero => intro i t ht; simp [runSchedulerFrom] at ht
    | succ n ih =>
      intro i t ht
      simp only [runSchedulerFrom, List.mem_cons] at ht
      rcases ht with h | h
      · subst h
        unfold runCycle
        cases env.runBatchMatching i with
        | error e => simp
        | ok v => cases env.expireOldMatches i <;> simp
      · exact ih (i + 1) t h
  intro env fuel
  exact ⟨hlen env fuel 0, hmem env fuel 0⟩

/-! ### C7 — common-slot computation -/

/-- A user whose slot set is `{"b", "a"}`, stored in that column order. -/
def slotUserA : User :=
  { id := 1, time_slot_1 := some "b", time_slot_2 := some "a" }

/-- A user whose slot set is `{"a", "b"}`, stored in that column order. -/
def slotUserB : User :=
  { id := 2, time_slot_1 := some "a", time_slot_2 := some "b" }

/-- C7 counterexample: the claim that the slot selected for display is always
the earliest common slot is false for the `home` view, which takes `common[0]`
without sorting: with the shared slots `{"a", "b"}` and the set enumeration
`["b", "a"]`, `home` displays `"b"` while the earliest common slot (what
`index` computes via `sorted(common)[0]`) is `"a"`. -/
theorem C7_counterexample :
    ¬ (∀ (a b : User) (enum : List String), enum.Perm (commonSlots a b) →
        homeSelectedSlot enum = indexSelectedSlot a b) := by
  intro h
  have h9 := h slotUserA slotUserB ["b", "a"] (List.Perm.refl _)
  have h8 : homeSelectedSlot ["b", "a"] = some "b" := rfl
  have h7 : indexSelectedSlot slotUserA slotUserB = some "a" := by
    simp [indexSelectedSlot, commonSlots, slotValues, slotUserA, slotUserB,
      List.insertionSort, List.orderedInsert]
    rw [if_neg (by decide)]
    rfl
  rw [h8, h7] at h9
  simp at h9

/-- C7 (amended): both views ignore null (and empty) slots and compute the
set intersection of the two users' slot sets — a slot is common iff it is a
non-empty value declared by both users, and the intersection is empty iff no
slot is shared.  The `index` view sorts and therefore selects the earliest
common slot; the `home` view selects some element of the intersection (the
first in Python's unspecified set-iteration order, modelled by an arbitrary
permutation `enum`), which need not be the earliest. -/
theorem C7_slot_intersection (a b : User) (enum : List String)
    (henum : enum.Perm (commonSlots a b)) :
    (∀ s : String, s ∈ commonSlots a b ↔
        s ≠ "" ∧ s ∈ slotValues a ∧ s ∈ slotValues b) ∧
    (∀ x, indexSelectedSlot a b = some x →
        x ∈ commonSlots a b ∧ ∀ s ∈ commonSlots a b, x ≤ s) ∧
    (commonSlots a b = [] → indexSelectedSlot a b = none ∧ enum = []) ∧
    (∀ x, homeSelectedSlot enum = some x → x ∈ commonSlots a b) := by
  refine ⟨?_, ?_, ?_, ?_⟩
  · intro s
    simp only [commonSlots, List.mem_filter, List.mem_dedup, decide_eq_true_eq]
    tauto
  · intro x hx
    have hsort := List.sorted_insertionSort (fun s t : String => s ≤ t) (commonSlots a b)
    have hperm := List.perm_insertionSort (fun s t : String => s ≤ t) (commonSlots a b)
    unfold indexSelectedSlot at hx
    rcases hL : (commonSlots a b).insertionSort (fun s t => s ≤ t) with _ | ⟨y, rest⟩
    · rw [hL] at hx; exact absurd hx (by simp)
    · rw [hL] at hx
      have hxy : y = x := by simpa using hx
      subst hxy
      rw [hL] at hsort hperm
      constructor
      · exact hperm.mem_iff.mp (List.mem_cons_self y rest)
      · intro s hs
        have hs9 : s ∈ y :: rest := hperm.mem_iff.mpr hs
        rcases List.mem_cons.mp hs9 with h | h
        · exact le_of_eq h.symm
        · exact (List.sorted_cons.mp hsort).1 s h
  · intro hempty
    constructor
    · unfold indexSelectedSlot
      rw [hempty]
      rfl
    · exact List.Perm.eq_nil (hempty ▸ henum)
  · intro x hx
    have : x ∈ enum := by
      unfold homeSelectedSlot at hx
      cases enum with
      | nil => exact absurd hx (by simp)
      | cons y rest => simp at hx; simp [hx]
    exact henum.mem_iff.mp this

/-- C7 witness: the amended theorem applied to the concrete pair
(`slotUserA`, `slotUserB`) with the enumeration `["b", "a"]`. -/
theorem C7_witness :
    (∀ s : String, s ∈ commonSlots slotUserA slotUserB ↔
        s ≠ "" ∧ s ∈ slotValues slotUserA ∧ s ∈ slotValues slotUserB) ∧
    (∀ x, indexSelectedSlot slotUserA slotUserB = some x →
        x ∈ commonSlots slotUserA slotUserB ∧
          ∀ s ∈ commonSlots slotUserA slotUserB, x ≤ s) ∧
    (commonSlots slotUserA slotUserB = [] →
        indexSelectedSlot slotUserA slotUserB = none ∧ (["b", "a"] : List String) = []) ∧
    (∀ x, homeSelectedSlot ["b", "a"] = some x →
        x ∈ commonSlots slotUserA slotUserB) :=
  C7_slot_intersection slotUserA slotUserB ["b", "a"] (List.Perm.refl _)

/-! ### C2 — commit symmetry -/

/-- C2: after a successful match commit (the matching service returned a
partner row `m`, fetched from the pool, distinct from the seeker), the
pairing is symmetric: the seeker's row points at `m` and `m`'s row points
back (so `A.partner_id = B.id ↔ B.partner_id = A.id`), both rows carry
`haspartner = true`, and both carry the same `meeting_id`, namely the
seeker's id. -/
theorem C2_commit_symmetry
    (finder : List User → User → Option (User × ℚ × String))
    (s : List User) (uid : Nat) (u m : User) (sc : ℚ) (slot : String)
    (hu : getUser s uid = some u)
    (hf : finder s u = some (m, sc, slot))
    (hm : getUser s m.id = some m)
    (hne : m.id ≠ uid) :
    ∃ u2 m2,
      getUser (find_matches_for_user finder s uid) uid = some u2 ∧
      getUser (find_matches_for_user finder s uid) m.id = some m2 ∧
      u2.id = uid ∧ m2.id = m.id ∧
      u2.partner_id = some m2.id ∧ m2.partner_id = some u2.id ∧
      (u2.partner_id = some m2.id ↔ m2.partner_id = some u2.id) ∧
      u2.haspartner = true ∧ m2.haspartner = true ∧
      u2.meeting_id = some uid ∧ m2.meeting_id = some uid ∧
      u2.meeting_id = m2.meeting_id := by
  have huid : u.id = uid := getUser_id_eq hu
  unfold find_matches_for_user
  simp only [hu, hf]
  unfold commitMatchState
  rw [getUser_map_of_id_preserving _ (commitMatch_id_preserving uid m.id) s uid,
    getUser_map_of_id_preserving _ (commitMatch_id_preserving uid m.id) s m.id,
    hu, hm]
  refine ⟨_, _, rfl, rfl, ?_⟩
  simp only [huid, if_pos rfl, if_neg hne]
  simp [huid]

/-- A free user used to witness the commit writes. -/
def seekerUser4 : User := { id := 4, topic := some "X" }

/-- Another free user used to witness the commit writes. -/
def candidateUser5 : User := { id := 5, topic := some "X" }

/-- C2 witness: the symmetry theorem applied to a concrete two-user pool with
a matching service that returns user 5 for user 4. -/
theorem C2_commit_symmetry_witness :
    ∃ u2 m2,
      getUser (find_matches_for_user (fun _ _ => some (candidateUser5, 1, "t"))
          [seekerUser4, candidateUser5] 4) 4 = some u2 ∧
      getUser (find_matches_for_user (fun _ _ => some (candidateUser5, 1, "t"))
          [seekerUser4, candidateUser5] 4) candidateUser5.id = some m2 ∧
      u2.id = 4 ∧ m2.id = candidateUser5.id ∧
      u2.partner_id = some m2.id ∧ m2.partner_id = some u2.id ∧
      (u2.partner_id = some m2.id ↔ m2.partner_id = some u2.id) ∧
      u2.haspartner = true ∧ m2.haspartner = true ∧
      u2.meeting_id = some 4 ∧ m2.meeting_id = some 4 ∧
      u2.meeting_id = m2.meeting_id :=
  C2_commit_symmetry (fun _ _ => some (candidateUser5, 1, "t"))
    [seekerUser4, candidateUser5] 4 seekerUser4 candidateUser5 1 "t"
    rfl rfl rfl (by decide)

/-! ### C3 — re-entrancy of the match commit -/

/-- A user already matched (to `matchedUser2`) with full matching scores. -/
def matchedUser1 : User :=
  { id := 1, topic := some "X", haspartner := true, partner_id := some 2,
    meeting_id := some 1, matchScores := List.replicate 10 (some 1),
    time_slot_1 := some "2025-12-01T12:00:00" }

/-- The current partner of `matchedUser1`. -/
def matchedUser2 : User :=
  { id := 2, topic := some "X", haspartner := true, partner_id := some 1,
    meeting_id := some 1, matchScores := List.replicate 10 (some 1),
    time_slot_1 := some "2025-12-01T12:00:00" }

/-- An unmatched eligible user on the same topic with a shared slot. -/
def freeUser3 : User :=
  { id := 3, topic := some "X", matchScores := List.replicate 10 (some 1),
    time_slot_1 := some "2025-12-01T12:00:00" }

/-- C3 counterexample: invoking the match-commit operation for user 1, who
already has a partner (user 2), is not a no-op: with the unmatched eligible
user 3 in the pool, the spec-modelled finder returns user 3 and the commit
re-pairs user 1 with user 3, changing the state (and leaving user 2's
`partner_id` dangling at user 1). -/
theorem C3_counterexample :
    (getUser [matchedUser1, matchedUser2, freeUser3] 1).map User.haspartner =
        some true ∧
    find_matches_for_user find_best_match_for_user
        [matchedUser1, matchedUser2, freeUser3] 1 ≠
      [matchedUser1, matchedUser2, freeUser3] := by
  constructor
  · rfl
  · intro h
    have h8 : (getUser (find_matches_for_user find_best_match_for_user
        [matchedUser1, matchedUser2, freeUser3] 1) 1).map User.partner_id =
        some (some 3) := rfl
    have h7 : (getUser [matchedUser1, matchedUser2, freeUser3] 1).map
        User.partner_id = some (some 2) := rfl
    have h9 : (getUser [matchedUser1, matchedUser2, freeUser3] 1).map
        User.partner_id = some (some 3) := by
      rw [← h]
      exact h8
    rw [h7] at h9
    simp at h9

/-- C3 (amended): invoking the match-commit operation a second time for a
user who already has a partner is not an error, but it is a no-op only when
the (spec-modelled) matching service finds no candidate for them; when an
eligible unmatched candidate `m` exists, the user is re-paired to `m`
exactly as on a first invocation — and their former partner `p` keeps its
now one-sided link to them. -/
theorem C3_recommit_behaviour (s : List User) (uid : Nat) (u : User)
    (hu : getUser s uid = some u) (hp : u.haspartner = true) :
    (find_best_match_for_user s u = none →
        find_matches_for_user find_best_match_for_user s uid = s) ∧
    (∀ m sc slot, find_best_match_for_user s u = some (m, sc, slot) →
      find_matches_for_user find_best_match_for_user s uid =
          commitMatchState s uid m.id ∧
      ∀ pid p, u.partner_id = some pid → pid ≠ uid → pid ≠ m.id →
          getUser s pid = some p →
          getUser (find_matches_for_user find_best_match_for_user s uid) pid =
            some p) := by
  constructor
  · intro hnone
    unfold find_matches_for_user
    simp only [hu, hnone]
  · intro m sc slot hsome
    have hcommit : find_matches_for_user find_best_match_for_user s uid =
        commitMatchState s uid m.id := by
      unfold find_matches_for_user
      simp only [hu, hsome]
    refine ⟨hcommit, ?_⟩
    intro pid p hpid hne1 hne2 hgp
    have hpidp : p.id = pid := getUser_id_eq hgp
    rw [hcommit]
    unfold commitMatchState
    rw [getUser_map_of_id_preserving _ (commitMatch_id_preserving uid m.id) s pid,
      hgp]
    simp only [Option.map_some']
    rw [if_neg (by rw [hpidp]; exact hne1), if_neg (by rw [hpidp]; exact hne2)]

/-- C3 witness: in a pool where every other user is already partnered the
finder yields no candidate, so a second invocation for the partnered user 1
is indeed a no-op. -/
theorem C3_witness :
    find_matches_for_user find_best_match_for_user
        [matchedUser1, matchedUser2] 1 = [matchedUser1, matchedUser2] :=
  (C3_recommit_behaviour [matchedUser1, matchedUser2] 1 matchedUser1
      rfl rfl).1 rfl

/-! ### C1 — openness score and extremist flag -/

/-- Looking up a user after the openness update of
`save_questionnaire_responses` yields the looked-up row with
`openness_score` and `is_extremist` overwritten. -/
theorem getUser_update_openness (s : List User) (uid : Nat) (u : User) (q : ℚ)
    (hu : getUser s uid = some u) :
    getUser (s.map (fun w => if w.id = uid then
        { w with openness_score := some q, is_extremist := decide (q < 0) } else w)) uid =
      some { u with openness_score := some q, is_extremist := decide (q < 0) } := by
  rw [getUser_map_of_id_preserving _ (by intro w; beta_reduce; split_ifs <;> rfl) s uid, hu]
  simp only [Option.map_some']
  rw [if_pos (getUser_id_eq hu)]

/-- C1: for a submission carrying all 5 attitude scores and all 10 matching
scores in `[-2, 2]`, against the seeded dimension catalog,
`save_questionnaire_responses` collects exactly the 5 attitude scores, sets
the user's `openness_score` to their arithmetic mean and `is_extremist` to
true iff that mean is negative — both in the returned dictionary and on the
persisted user row. -/
theorem C1_openness_is_mean_of_attitudes (now : Nat) (s : QState) (uid : Nat)
    (u : User) (form : String → Option ℚ) (a : Nat → ℚ) (b : Nat → ℚ)
    (hdims : s.dims = initialize_opinion_dimensions [])
    (hu : getUser s.users uid = some u)
    (hatt : ∀ i ∈ ([1, 2, 3, 4, 5] : List Nat),
        form ("attitude" ++ toString i) = some (a i) ∧ -2 ≤ a i ∧ a i ≤ 2)
    (hmat : ∀ i ∈ ([1, 2, 3, 4, 5, 6, 7, 8, 9, 10] : List Nat),
        form ("match" ++ toString i) = some (b i) ∧ -2 ≤ b i ∧ b i ≤ 2) :
    ∃ res, (save_questionnaire_responses now s uid form).2 = some res ∧
      res.attitude_scores = [a 1, a 2, a 3, a 4, a 5] ∧
      res.openness_score = some ((a 1 + a 2 + a 3 + a 4 + a 5) / 5) ∧
      (res.is_extremist = true ↔ (a 1 + a 2 + a 3 + a 4 + a 5) / 5 < 0) ∧
      ∃ u2, getUser (save_questionnaire_responses now s uid form).1.users uid = some u2 ∧
        u2.openness_score = some ((a 1 + a 2 + a 3 + a 4 + a 5) / 5) ∧
        (u2.is_extremist = true ↔ (a 1 + a 2 + a 3 + a 4 + a 5) / 5 < 0) := by
  have e1 := (hatt 1 (by simp)).1
  have e2 := (hatt 2 (by simp)).1
  have e3 := (hatt 3 (by simp)).1
  have e4 := (hatt 4 (by simp)).1
  have e5 := (hatt 5 (by simp)).1
  have f1 : ((initialize_opinion_dimensions []).find?
      (fun d => d.question_type = "attitude" ∧ d.question_number = 1)).isSome := by decide
  have f2 : ((initialize_opinion_dimensions []).find?
      (fun d => d.question_type = "attitude" ∧ d.question_number = 2)).isSome := by decide
  have f3 : ((initialize_opinion_dimensions []).find?
      (fun d => d.question_type = "attitude" ∧ d.question_number = 3)).isSome := by decide
  have f4 : ((initialize_opinion_dimensions []).find?
      (fun d => d.question_type = "attitude" ∧ d.question_number = 4)).isSome := by decide
  have f5 : ((initialize_opinion_dimensions []).find?
      (fun d => d.question_type = "attitude" ∧ d.question_number = 5)).isSome := by decide
  rcases Option.isSome_iff_exists.mp f1 with ⟨d1, hd1⟩
  rcases Option.isSome_iff_exists.mp f2 with ⟨d2, hd2⟩
  rcases Option.isSome_iff_exists.mp f3 with ⟨d3, hd3⟩
  rcases Option.isSome_iff_exists.mp f4 with ⟨d4, hd4⟩
  rcases Option.isSome_iff_exists.mp f5 with ⟨d5, hd5⟩
  unfold save_questionnaire_responses
  simp only [hu]
  simp only [hdims, List.foldl_cons, List.foldl_nil]
  simp only [attitudeStep.eq_def, e1, e2, e3, e4, e5, hd1, hd2, hd3, hd4, hd5]
  simp only [List.nil_append, List.cons_append, List.isEmpty_cons, Bool.false_eq_true,
    if_false]
  rw [getUser_update_openness s.users uid u _ hu]
  simp only [List.sum_cons, List.sum_nil, List.length_cons, List.length_nil]
  norm_num
  have hsum : a 1 + (a 2 + (a 3 + (a 4 + a 5))) = a 1 + a 2 + a 3 + a 4 + a 5 := by
    ring
  rw [hsum]
  refine ⟨rfl, Iff.rfl, ?_⟩
  rw [getUser_update_openness s.users uid u _ hu]
  exact ⟨_, rfl, rfl, by simp⟩

/-- A bare user row used by the questionnaire witnesses. -/
def qUser7 : User := { id := 7 }

/-- A questionnaire state with the seeded catalog, no opinions and one user. -/
def qState7 : QState :=
  { dims := initialize_opinion_dimensions [], opinions := [], users := [qUser7] }

/-- A complete submission answering every question with score 1. -/
def qForm7 : String → Option ℚ := fun k =>
  if k = "attitude1" ∨ k = "attitude2" ∨ k = "attitude3" ∨ k = "attitude4" ∨
      k = "attitude5" ∨ k = "match1" ∨ k = "match2" ∨ k = "match3" ∨
      k = "match4" ∨ k = "match5" ∨ k = "match6" ∨ k = "match7" ∨
      k = "match8" ∨ k = "match9" ∨ k = "match10" then
    some 1
  else none

/-- C1 witness: the theorem applied to the concrete all-ones submission. -/
theorem C1_witness :
    ∃ res, (save_questionnaire_responses 0 qState7 7 qForm7).2 = some res ∧
      res.attitude_scores = [1, 1, 1, 1, 1] ∧
      res.openness_score = some (((1 : ℚ) + 1 + 1 + 1 + 1) / 5) ∧
      (res.is_extremist = true ↔ ((1 : ℚ) + 1 + 1 + 1 + 1) / 5 < 0) ∧
      ∃ u2, getUser (save_questionnaire_responses 0 qState7 7 qForm7).1.users 7 =
          some u2 ∧
        u2.openness_score = some (((1 : ℚ) + 1 + 1 + 1 + 1) / 5) ∧
        (u2.is_extremist = true ↔ ((1 : ℚ) + 1 + 1 + 1 + 1) / 5 < 0) :=
  C1_openness_is_mean_of_attitudes 0 qState7 7 qUser7 qForm7 (fun _ => 1) (fun _ => 1)
    rfl rfl
    (by intro i hi; fin_cases hi <;> exact ⟨rfl, by norm_num, by norm_num⟩)
    (by intro i hi; fin_cases hi <;> exact ⟨rfl, by norm_num, by norm_num⟩)

/-! ### C4 — out-of-range scores -/

/-- A bare user row for the out-of-range submission. -/
def oorUser : User := { id := 8 }

/-- State: seeded catalog, no opinion rows, the single user `oorUser`. -/
def oorState : QState :=
  { dims := initialize_opinion_dimensions [], opinions := [], users := [oorUser] }

/-- A submission whose `attitude1` value 3 lies outside `[-2, 2]`. -/
def oorForm : String → Option ℚ := fun k =>
  if k = "attitude1" then some 3
  else if k = "attitude2" then some 0
  else if k = "attitude3" then some 0
  else if k = "attitude4" then some 0
  else if k = "attitude5" then some 0
  else none

/-- C4 counterexample: a submission containing the out-of-range value 3 is
not rejected — `save_questionnaire_responses` creates `UserOpinion` rows and
changes the user's `openness_score`. -/
theorem C4_counterexample :
    oorForm ("attitude1") = some 3 ∧
    ¬ ((-2 : ℚ) ≤ 3 ∧ (3 : ℚ) ≤ 2) ∧
    (save_questionnaire_responses 0 oorState 8 oorForm).1.opinions ≠
      oorState.opinions ∧
    (getUser (save_questionnaire_responses 0 oorState 8 oorForm).1.users 8).map
        User.openness_score ≠
      (getUser oorState.users 8).map User.openness_score := by
  refine ⟨rfl, by norm_num, by decide, by decide⟩

/-- C4 (amended): the code performs no range validation — a submission
whose `attitude1` value lies outside `[-2, 2]` is processed exactly like a
valid one: every attitude row is written with the submitted value as-is
(here against an empty opinion table and with no matching fields, so the
resulting rows are explicit), and the user's `openness_score` is recomputed
as the mean including the out-of-range value. -/
theorem C4_no_range_validation (now : Nat) (s : QState) (uid : Nat) (u : User)
    (form : String → Option ℚ) (a : Nat → ℚ)
    (hdims : s.dims = initialize_opinion_dimensions [])
    (hops : s.opinions = [])
    (hu : getUser s.users uid = some u)
    (hatt : ∀ i ∈ ([1, 2, 3, 4, 5] : List Nat),
        form ("attitude" ++ toString i) = some (a i))
    (hmat : ∀ i ∈ ([1, 2, 3, 4, 5, 6, 7, 8, 9, 10] : List Nat),
        form ("match" ++ toString i) = none)
    (hout : a 1 < -2 ∨ 2 < a 1) :
    (save_questionnaire_responses now s uid form).1.opinions =
      [⟨uid, 1, a 1, now⟩, ⟨uid, 2, a 2, now⟩, ⟨uid, 3, a 3, now⟩,
        ⟨uid, 4, a 4, now⟩, ⟨uid, 5, a 5, now⟩] ∧
    ∃ u2, getUser (save_questionnaire_responses now s uid form).1.users uid = some u2 ∧
      u2.openness_score = some ((a 1 + a 2 + a 3 + a 4 + a 5) / 5) := by
  have e1 := hatt 1 (by simp)
  have e2 := hatt 2 (by simp)
  have e3 := hatt 3 (by simp)
  have e4 := hatt 4 (by simp)
  have e5 := hatt 5 (by simp)
  have m1 := hmat 1 (by simp)
  have m2 := hmat 2 (by simp)
  have m3 := hmat 3 (by simp)
  have m4 := hmat 4 (by simp)
  have m5 := hmat 5 (by simp)
  have m6 := hmat 6 (by simp)
  have m7 := hmat 7 (by simp)
  have m8 := hmat 8 (by simp)
  have m9 := hmat 9 (by simp)
  have m10 := hmat 10 (by simp)
  have f1 : ((initialize_opinion_dimensions []).find?
      (fun d => d.question_type = "attitude" ∧ d.question_number = 1)).isSome := by decide
  have f2 : ((initialize_opinion_dimensions []).find?
      (fun d => d.question_type = "attitude" ∧ d.question_number = 2)).isSome := by decide
  have f3 : ((initialize_opinion_dimensions []).find?
      (fun d => d.question_type = "attitude" ∧ d.question_number = 3)).isSome := by decide
  have f4 : ((initialize_opinion_dimensions []).find?
      (fun d => d.question_type = "attitude" ∧ d.question_number = 4)).isSome := by decide
  have f5 : ((initialize_opinion_dimensions []).find?
      (fun d => d.question_type = "attitude" ∧ d.question_number = 5)).isSome := by decide
  rcases Option.isSome_iff_exists.mp f1 with ⟨d1, hd1⟩
  rcases Option.isSome_iff_exists.mp f2 with ⟨d2, hd2⟩
  rcases Option.isSome_iff_exists.mp f3 with ⟨d3, hd3⟩
  rcases Option.isSome_iff_exists.mp f4 with ⟨d4, hd4⟩
  rcases Option.isSome_iff_exists.mp f5 with ⟨d5, hd5⟩
  have hid1 : d1.id = 1 := by
    have h0 : ((initialize_opinion_dimensions []).find?
        (fun d => d.question_type = "attitude" ∧ d.question_number = 1)).map
          OpinionDimension.id = some 1 := by decide
    rw [hd1] at h0; simpa using h0
  have hid2 : d2.id = 2 := by
    have h0 : ((initialize_opinion_dimensions []).find?
        (fun d => d.question_type = "attitude" ∧ d.question_number = 2)).map
          OpinionDimension.id = some 2 := by decide
    rw [hd2] at h0; simpa using h0
  have hid3 : d3.id = 3 := by
    have h0 : ((initialize_opinion_dimensions []).find?
        (fun d => d.question_type = "attitude" ∧ d.question_number = 3)).map
          OpinionDimension.id = some 3 := by decide
    rw [hd3] at h0; simpa using h0
  have hid4 : d4.id = 4 := by
    have h0 : ((initialize_opinion_dimensions []).find?
        (fun d => d.question_type = "attitude" ∧ d.question_number = 4)).map
          OpinionDimension.id = some 4 := by decide
    rw [hd4] at h0; simpa using h0
  have hid5 : d5.id = 5 := by
    have h0 : ((initialize_opinion_dimensions []).find?
        (fun d => d.question_type = "attitude" ∧ d.question_number = 5)).map
          OpinionDimension.id = some 5 := by decide
    rw [hd5] at h0; simpa using h0
  unfold save_questionnaire_responses
  simp only [hu]
  simp only [hdims, hops, List.foldl_cons, List.foldl_nil]
  simp only [attitudeStep.eq_def, e1, e2, e3, e4, e5, hd1, hd2, hd3, hd4, hd5]
  simp only [matchStep.eq_def, m1, m2, m3, m4, m5, m6, m7, m8, m9, m10]
  simp only [hid1, hid2, hid3, hid4, hid5]
  simp [upsertOpinion]
  rw [getUser_update_openness s.users uid u _ hu]
  norm_num
  rw [getUser_update_openness s.users uid u _ hu]
  refine ⟨_, rfl, ?_⟩
  exact congrArg some (by ring)


/-- C4 witness: the amended theorem applied to the concrete out-of-range
submission `oorForm` (attitude1 = 3). -/
theorem C4_witness :
    (save_questionnaire_responses 0 oorState 8 oorForm).1.opinions =
      [⟨8, 1, 3, 0⟩, ⟨8, 2, 0, 0⟩, ⟨8, 3, 0, 0⟩, ⟨8, 4, 0, 0⟩, ⟨8, 5, 0, 0⟩] ∧
    ∃ u2, getUser (save_questionnaire_responses 0 oorState 8 oorForm).1.users 8 =
        some u2 ∧
      u2.openness_score = some (((3 : ℚ) + 0 + 0 + 0 + 0) / 5) :=
  C4_no_range_validation 0 oorState 8 oorUser oorForm
    (fun i => if i = 1 then 3 else 0) rfl rfl rfl
    (by intro i hi; fin_cases hi <;> rfl)
    (by intro i hi; fin_cases hi <;> rfl)
    (by norm_num)

/-! ### C5 — per-(user, dimension) uniqueness -/

/-- At most one `UserOpinion` row per (user, dimension) pair. -/
def OpinionKeysUnique (ops : List UserOpinion) : Prop :=
  List.Pairwise
    (fun r1 r2 => ¬(r1.user_id = r2.user_id ∧ r1.dimension_id = r2.dimension_id)) ops

/-- Every row of an upsert result is either an original row or carries the
upserted (user, dimension) key. -/
theorem mem_upsertOpinion {x : UserOpinion} :
    ∀ {ops : List UserOpinion} {uid did : Nat} {sc : ℚ} {now : Nat},
      x ∈ upsertOpinion ops uid did sc now →
      x ∈ ops ∨ (x.user_id = uid ∧ x.dimension_id = did) := by
  intro ops
  induction ops with
  | nil =>
    intro uid did sc now hx
    simp [upsertOpinion] at hx
    right
    rw [hx]
    exact ⟨rfl, rfl⟩
  | cons o rest ih =>
    intro uid did sc now hx
    unfold upsertOpinion at hx
    split_ifs at hx with hc
    · rcases List.mem_cons.mp hx with h | h
      · right
        rw [h]
        exact hc
      · exact Or.inl (List.mem_cons_of_mem o h)
    · rcases List.mem_cons.mp hx with h | h
      · exact Or.inl (h ▸ List.mem_cons_self o rest)
      · rcases ih h with h2 | h2
        · exact Or.inl (List.mem_cons_of_mem o h2)
        · exact Or.inr h2

/-- Upserting preserves per-key uniqueness: an existing row is replaced in
place, a missing one is appended with a key that was absent. -/
theorem upsertOpinion_unique :
    ∀ {ops : List UserOpinion} {uid did : Nat} {sc : ℚ} {now : Nat},
      OpinionKeysUnique ops → OpinionKeysUnique (upsertOpinion ops uid did sc now) := by
  intro ops
  induction ops with
  | nil =>
    intro uid did sc now _
    simp [upsertOpinion, OpinionKeysUnique]
  | cons o rest ih =>
    intro uid did sc now h
    rcases List.pairwise_cons.mp h with ⟨hrel, htail⟩
    unfold upsertOpinion
    split_ifs with hc
    · refine List.pairwise_cons.mpr ⟨?_, htail⟩
      intro b hb
      exact hrel b hb
    · refine List.pairwise_cons.mpr ⟨?_, ih htail⟩
      intro b hb
      rcases mem_upsertOpinion hb with h2 | h2
      · exact hrel b h2
      · intro hk
        exact hc ⟨hk.1.trans h2.1, hk.2.trans h2.2⟩

/-- One attitude-loop iteration preserves per-key uniqueness. -/
theorem attitudeStep_unique (dims : List OpinionDimension) (uid now : Nat)
    (form : String → Option ℚ) (acc : List UserOpinion × List ℚ) (i : Nat)
    (h : OpinionKeysUnique acc.1) :
    OpinionKeysUnique (attitudeStep dims uid now form acc i).1 := by
  unfold attitudeStep
  cases form ("attitude" ++ toString i) with
  | none => exact h
  | some sc =>
    cases dims.find? (fun d => d.question_type = "attitude" ∧ d.question_number = i) with
    | none => exact h
    | some dim => exact upsertOpinion_unique h

/-- One matching-loop iteration preserves per-key uniqueness. -/
theorem matchStep_unique (dims : List OpinionDimension) (uid now : Nat)
    (form : String → Option ℚ) (acc : List UserOpinion) (i : Nat)
    (h : OpinionKeysUnique acc) :
    OpinionKeysUnique (matchStep dims uid now form acc i) := by
  unfold matchStep
  cases form ("match" ++ toString i) with
  | none => exact h
  | some sc =>
    cases dims.find? (fun d => d.question_type = "matching" ∧ d.question_number = i) with
    | none => exact h
    | some dim => exact upsertOpinion_unique h

/-- The attitude loop preserves per-key uniqueness. -/
theorem attitudeFold_unique (dims : List OpinionDimension) (uid now : Nat)
    (form : String → Option ℚ) :
    ∀ (l : List Nat) (acc : List UserOpinion × List ℚ), OpinionKeysUnique acc.1 →
      OpinionKeysUnique (l.foldl (attitudeStep dims uid now form) acc).1 := by
  intro l
  induction l with
  | nil => intro acc h; exact h
  | cons i rest ih =>
    intro acc h
    exact ih _ (attitudeStep_unique dims uid now form acc i h)

/-- The matching loop preserves per-key uniqueness. -/
theorem matchFold_unique (dims : List OpinionDimension) (uid now : Nat)
    (form : String → Option ℚ) :
    ∀ (l : List Nat) (acc : List UserOpinion), OpinionKeysUnique acc →
      OpinionKeysUnique (l.foldl (matchStep dims uid now form) acc) := by
  intro l
  induction l with
  | nil => intro acc h; exact h
  | cons i rest ih =>
    intro acc h
    exact ih _ (matchStep_unique dims uid now form acc i h)

/-- A single questionnaire submission preserves per-key uniqueness. -/
theorem save_questionnaire_responses_unique (now : Nat) (s : QState) (uid : Nat)
    (form : String → Option ℚ) (h : OpinionKeysUnique s.opinions) :
    OpinionKeysUnique (save_questionnaire_responses now s uid form).1.opinions := by
  unfold save_questionnaire_responses
  cases hu : getUser s.users uid with
  | none => exact h
  | some u =>
    have h1 := attitudeFold_unique s.dims uid now form [1, 2, 3, 4, 5] (s.opinions, []) h
    have h2 := matchFold_unique s.dims uid now form
      [1, 2, 3, 4, 5, 6, 7, 8, 9, 10] _ h1
    simp only []
    split <;> exact h2

/-- A sequence of questionnaire submissions
(`(now, user_id, form)` triples), applied in order. -/
def applySubmissions (subs : List (Nat × Nat × (String → Option ℚ))) (s : QState) :
    QState :=
  subs.foldl (fun st sub => (save_questionnaire_responses sub.1 st sub.2.1 sub.2.2).1) s

/-- C5: per-key uniqueness of `UserOpinion` rows is preserved by any sequence
of questionnaire submissions (so at most one row ever exists per
(user, dimension) pair), and a re-submission for an existing pair updates
that row's `score` and `updated_at` in place — the row count is unchanged and
the pair's row now carries the new score and timestamp. -/
theorem C5_opinion_rows_unique :
    (∀ (s : QState) (subs : List (Nat × Nat × (String → Option ℚ))),
        OpinionKeysUnique s.opinions →
        OpinionKeysUnique (applySubmissions subs s).opinions) ∧
    (∀ (ops : List UserOpinion) (uid did : Nat) (sc : ℚ) (now : Nat) (r : UserOpinion),
        r ∈ ops → r.user_id = uid → r.dimension_id = did →
        (upsertOpinion ops uid did sc now).length = ops.length ∧
        ∃ r2, r2 ∈ upsertOpinion ops uid did sc now ∧ r2.user_id = uid ∧
          r2.dimension_id = did ∧ r2.score = sc ∧ r2.updated_at = now) := by
  constructor
  · intro s subs
    induction subs generalizing s with
    | nil => intro h; exact h
    | cons sub rest ih =>
      intro h
      exact ih _ (save_questionnaire_responses_unique sub.1 s sub.2.1 sub.2.2 h)
  · intro ops
    induction ops with
    | nil =>
      intro uid did sc now r hr
      exact absurd hr (List.not_mem_nil r)
    | cons o rest ih =>
      intro uid did sc now r hr hu hd
      unfold upsertOpinion
      split_ifs with hc
      · refine ⟨by simp, ⟨{ o with score := sc, updated_at := now }, ?_⟩⟩
        exact ⟨List.mem_cons_self _ _, hc.1, hc.2, rfl, rfl⟩
      · rcases List.mem_cons.mp hr with h | h
        · exact absurd ⟨h ▸ hu, h ▸ hd⟩ hc
        · rcases ih uid did sc now r h hu hd with ⟨hlen, r2, hr2⟩
          exact ⟨by simp [hlen], ⟨r2, List.mem_cons_of_mem o hr2.1, hr2.2⟩⟩

/-- C5 witness: uniqueness after a concrete submission sequence from the
empty table, and an in-place update of a concrete existing row. -/
theorem C5_witness :
    OpinionKeysUnique (applySubmissions [(0, 7, qForm7), (1, 7, qForm7)] qState7).opinions ∧
    ((upsertOpinion [⟨7, 1, 2, 0⟩] 7 1 (-1) 5).length = 1 ∧
      ∃ r2, r2 ∈ upsertOpinion [⟨7, 1, 2, 0⟩] 7 1 (-1) 5 ∧ r2.user_id = 7 ∧
        r2.dimension_id = 1 ∧ r2.score = -1 ∧ r2.updated_at = 5) :=
  ⟨C5_opinion_rows_unique.1 qState7 [(0, 7, qForm7), (1, 7, qForm7)]
      (by simp [qState7, OpinionKeysUnique]),
    C5_opinion_rows_unique.2 [⟨7, 1, 2, 0⟩] 7 1 (-1) 5 ⟨7, 1, 2, 0⟩
      (List.mem_cons_self _ _) rfl rfl⟩

/-- A scheduler environment whose phases always succeed, for the witness. -/
def schedEnvOk : SchedEnv := ⟨fun _ => .ok 0, fun _ => .ok 0⟩

/-- C6 witness: the scheduler theorem applied to a concrete environment and
two ticks. -/
theorem C6_witness :
    (runScheduler schedEnvOk 2).length = 2 ∧
    ∀ t ∈ runScheduler schedEnvOk 2,
      t = [.batchRun, .expireRun] ∨
      t = [.batchRun, .expireRun, .errorCaught] ∨
      t = [.batchRun, .errorCaught] :=
  C6_scheduler_order_and_containment schedEnvOk 2

/-- C8 witness: the positive-weight clause applied to the first catalog row. -/
theorem C8_witness :
    0 < (⟨1, "attitude_open_to_differ", "Open to Different Opinions", "attitude", 1,
      "I am open to hearing opinions on this topic that differ from my own.", 1,
      true⟩ : OpinionDimension).default_weight :=
  C8_initialize_opinion_dimensions_seeds_once.2.2.2.1 _ (List.mem_cons_self _ _)

end Website
